import Mathlib

/-!
Verification development for a Lox-like tree-walking interpreter
(scanner → Pratt parser → evaluator over a chain of lexical environments).

Modelling conventions, chosen once and used throughout:

* Rust `f64` is modelled as `Rat`.  Every claim checked here exercises only
  exact values (small integers), where rational and IEEE-754 double
  arithmetic and formatting agree.
* Rust `Bytes` (byte strings used for identifiers, string literals and the
  output sink) is modelled as `String`.
* The token stream produced by the scanner is an external collaborator of
  the parser (a sequence of `Result<Token, LexicalError>` values together
  with the scanner's current line); it is modelled as an explicit list of
  `(Except LexicalError Token) × Nat` pairs, the `Nat` being the line the
  scanner stands on after producing that token.
* The reference-counted heap of environments (`Rc<RefCell<Environment>>`)
  is modelled as an arena: a list of environment records, where an `Rc`
  handle becomes the record's index.  New environments are appended at the
  end; a parent pointer is the parent's index.
* Panics (`unwrap`, `unreachable!`, `unimplemented!`) are modelled as a
  distinguished `panicked` outcome carrying the panic site; divergence and
  fuel exhaustion are modelled as a distinguished `outOfFuel`/`spin`
  outcome.  All recursive functions take explicit fuel, structurally
  decreasing, so that every definition is executable and reduces by `rfl`.
-/

namespace Lox

/-- Lexical errors signalled by the token stream (token.rs `LexicalError`). -/
inductive LexicalError where
  | unExpectedToken (ch : Char) (line : Nat)
  | unterminatedString (line : Nat)
  deriving DecidableEq, Repr

/-- Operator precedences (parser/expression.rs `Precedence`).  The source
constructor `Prefix` is called `pre` here. -/
inductive Precedence where
  | lowest
  | assign
  | equals
  | or
  | and
  | lessGreater
  | sum
  | product
  | pre
  | call
  deriving DecidableEq, Repr

/-- Numeric value of a precedence (parser/expression.rs `Precedence::value`,
the enum discriminants `Lowest = 1` … `Call = 10`). -/
def Precedence.value : Precedence → Nat
  | .lowest => 1
  | .assign => 2
  | .equals => 3
  | .or => 4
  | .and => 5
  | .lessGreater => 6
  | .sum => 7
  | .product => 8
  | .pre => 9
  | .call => 10

/-- Tokens (token.rs `Token`).  Keyword tokens are prefixed with `k` where
the bare name would collide with Lean keywords; `NumberLiteral` keeps both
the parsed value and the lexeme, as in the source. -/
inductive Token where
  | lparen
  | rparen
  | lbrace
  | rbrace
  | star
  | dot
  | comma
  | plus
  | minus
  | slash
  | comment (s : String)
  | semicolon
  | equal
  | equalequal
  | bang
  | bangequal
  | less
  | lessequal
  | greater
  | greaterequal
  | stringLiteral (s : String)
  | numberLiteral (n : Rat) (lexeme : String)
  | identifier (s : String)
  | kand
  | kclass
  | kelse
  | kfalse
  | kfor
  | kfun
  | kif
  | knil
  | kor
  | kprint
  | kreturn
  | ksuper
  | kthis
  | ktrue
  | kvar
  | kwhile
  | eof
  deriving DecidableEq, Repr

/-- token.rs `Token::get_precedence`.  Note that the wildcard arm maps every
token other than the eight arithmetic/comparison/equality operators — in
particular `=`, `and`, `or` and `(` — to `Precedence::Lowest`. -/
def Token.getPrecedence : Token → Precedence
  | .plus | .minus => .sum
  | .slash | .star => .product
  | .less | .greater | .lessequal | .greaterequal => .lessGreater
  | .bangequal | .equalequal => .equals
  | _ => .lowest

/-- Display form of a number under Rust's `{}` formatting of `f64`
(agrees on the integral values exercised here). -/
def f64Display (v : Rat) : String :=
  if v.den = 1 then toString v.num else toString v

/-- Debug form of a number under Rust's `{:?}` formatting of `f64`
(agrees on the integral values exercised here). -/
def f64Debug (v : Rat) : String :=
  if v.den = 1 then toString v.num ++ ".0" else toString v

/-- token.rs `impl Display for Token`.  The `COMMENT` arm is
`unimplemented!` in the source and is never reached; it is rendered as the
empty string here. -/
def Token.display : Token → String
  | .lparen => "("
  | .rparen => ")"
  | .lbrace => "\x7b"
  | .rbrace => "\x7d"
  | .star => "*"
  | .dot => "."
  | .comma => ","
  | .plus => "+"
  | .minus => "-"
  | .semicolon => ";"
  | .equal => "="
  | .equalequal => "=="
  | .bang => "!"
  | .bangequal => "!="
  | .less => "<"
  | .lessequal => "<="
  | .greater => ">"
  | .greaterequal => ">="
  | .slash => "/"
  | .comment _ => ""
  | .stringLiteral s => s
  | .numberLiteral n _ => f64Display n
  | .identifier s => s
  | .kand => "and"
  | .kclass => "class"
  | .kelse => "else"
  | .kfalse => "false"
  | .kfor => "for"
  | .kfun => "fun"
  | .kif => "if"
  | .knil => "nil"
  | .kor => "or"
  | .kprint => "print"
  | .kreturn => "return"
  | .ksuper => "super"
  | .kthis => "this"
  | .ktrue => "true"
  | .kvar => "var"
  | .kwhile => "while"
  | .eof => ""

/-- Parse errors (parser/mod.rs `ParseError`). -/
inductive ParseError where
  | emptySource
  | impossibleError
  | lexicalError (e : LexicalError)
  | expectedTokenNotFound (expected : String) (got : Token) (line : Nat)
  | tooManyArguments (at_ : Token)
  | unmatchedParentheses
  | invalidAssignmentTarget
  deriving DecidableEq, Repr

mutual

/-- Expression AST (parser/expression.rs `Expression`).  `Ident` carries the
identifier text; `InfixExpression` also represents assignment (`=`) and the
logical operators, exactly as in the source. -/
inductive Expression where
  | nilLiteral
  | print (e : Expression)
  | booleanLiteral (b : Bool)
  | numberLiteral (n : Rat)
  | stringLiteral (s : String)
  | ident (name : String)
  | groupedExpression (e : Expression)
  | prefixExpression (operator : Token) (expr : Expression)
  | infixExpression (operator : Token) (leftExpr : Expression) (rightExpr : Expression)
  | function (fe : FunctionExpression)
  | call (callee : Expression) (arguments : Option (List Expression))

/-- Function literal (parser/expression.rs `FunctionExpression`).  The
source stores the optional name and the parameters as `Token`s that are
always `Identifier`s (the parser enforces this); they are modelled as the
identifier text directly, which is what `Token::get_bytes` extracts. -/
inductive FunctionExpression where
  | mk (name : Option String) (parameters : Option (List String))
      (body : List Statement)

/-- Statement AST (parser/expression.rs `Statement`).  The source
constructor `Return` is called `ret` here. -/
inductive Statement where
  | expression (e : Expression)
  | print (e : Expression)
  | varDeclaration (identifier : String) (expr : Option Expression)
  | block (stmts : List Statement)
  | ifStatement (expr : Expression) (ifBlock : Statement)
      (elseBlock : Option Statement)
  | whileLoop (expr : Option Expression) (block : Statement)
  | ret (e : Expression)

end

def FunctionExpression.name : FunctionExpression → Option String
  | .mk n _ _ => n

def FunctionExpression.parameters : FunctionExpression → Option (List String)
  | .mk _ p _ => p

def FunctionExpression.body : FunctionExpression → List Statement
  | .mk _ _ b => b

end Lox

namespace Lox

/-- One element of the token stream: the scanner's next `Result<Token,
LexicalError>` together with the line the scanner stands on after
producing it (`TokenIterator::get_curr_line`). -/
abbrev TokenStream := List ((Except LexicalError Token) × Nat)

/-- Parser state (parser/mod.rs `Parser`): the two-token lookahead window,
the not-yet-consumed remainder of the token stream, and the scanner's
current line. -/
structure PState where
  curr : Token
  peek : Token
  rest : TokenStream
  line : Nat
  deriving Repr

/-- Outcome of running a parse function: success with a value and the new
parser state, a returned `ParseError`, a panic (an `unwrap` or
`unreachable!` in the source), or fuel exhaustion (modelling divergence,
which no terminating run of the source exhibits). -/
inductive ParseOutcome (α : Type) where
  | ok (a : α) (st : PState)
  | failed (e : ParseError)
  | panicked
  | outOfFuel

/-- State-passing parse computation. -/
def PM (α : Type) : Type := PState → ParseOutcome α

instance : Monad PM where
  pure a := fun st => .ok a st
  bind m f := fun st =>
    match m st with
    | .ok a st' => f a st'
    | .failed e => .failed e
    | .panicked => .panicked
    | .outOfFuel => .outOfFuel

def pfail (e : ParseError) : PM α := fun _ => .failed e

def ppanic : PM α := fun _ => .panicked

def pspin : PM α := fun _ => .outOfFuel

def getSt : PM PState := fun st => .ok st st

/-- parser/mod.rs `Parser::advance_token`: swap `curr` and `peek`; when the
old `peek` was not EOF, pull the next stream element with
`.next().unwrap().unwrap()` — both a drained iterator and a lexical error
therefore panic. -/
def advanceToken : PM Unit := fun st =>
  if st.peek = .eof then
    .ok () { st with curr := st.peek, peek := .eof }
  else
    match st.rest with
    | [] => .panicked
    | (.error _, _) :: _ => .panicked
    | (.ok t, l) :: r => .ok () { curr := st.peek, peek := t, rest := r, line := l }

/-- parser/mod.rs `Parser::from_source`, from the point where the scanner
has been built: read the first two tokens, wrapping a lexical error in
either position as `ParseError::LexicalError`; an empty stream or a
leading EOF is `EmptySource`; a stream that ends after one token panics
(`ok_or_else(|| unreachable!())`). -/
def fromSource (ts : TokenStream) : ParseOutcome PState :=
  match ts with
  | [] => .failed .emptySource
  | (.error e, _) :: _ => .failed (.lexicalError e)
  | (.ok t, _) :: rest =>
    if t = .eof then .failed .emptySource
    else
      match rest with
      | [] => .panicked
      | (.error e, _) :: _ => .failed (.lexicalError e)
      | (.ok t2, l2) :: rest2 => .ok { curr := t, peek := t2, rest := rest2, line := l2 } { curr := t, peek := t2, rest := rest2, line := l2 }

mutual

/-- parser/mod.rs `Parser::parse_prefix_grouped_expression`. -/
def parsePrefixGroupedExpression : Nat → PM Expression
  | 0 => pspin
  | f+1 => do
    let st ← getSt
    if st.peek = .rparen then
      pfail (.expectedTokenNotFound "expression" .rparen st.line)
    else do
      advanceToken
      let expr ← parseExpression f .lowest
      let st1 ← getSt
      if st1.peek = .rparen then do
        advanceToken
        pure (.groupedExpression expr)
      else
        pfail .unmatchedParentheses
termination_by structural f => f

/-- parser/mod.rs `Parser::parse_prefix_operator_expression`. -/
def parsePrefixOperatorExpression : Nat → PM Expression
  | 0 => pspin
  | f+1 => do
    let st ← getSt
    let operator := st.curr
    advanceToken
    let expression ← parseExpression f .pre
    pure (.prefixExpression operator expression)
termination_by structural f => f

/-- parser/mod.rs `Parser::parse_infix_operator_expression`. -/
def parseInfixOperatorExpression : Nat → Expression → PM Expression
  | 0, _ => pspin
  | f+1, leftExpr => do
    let st ← getSt
    let operator := st.curr
    advanceToken
    let rightExpr ← parseExpression f operator.getPrecedence
    pure (.infixExpression operator leftExpr rightExpr)
termination_by structural f => f

/-- parser/mod.rs `Parser::parse_call_expression` (the leading
`advance_token`; the argument loop is `parseCallArgsLoop`). -/
def parseCallExpression : Nat → Expression → PM Expression
  | 0, _ => pspin
  | f+1, leftExpr => do
    advanceToken
    parseCallArgsLoop f [] leftExpr
termination_by structural f => f

/-- The argument-collecting `loop` inside `parse_call_expression`. -/
def parseCallArgsLoop : Nat → List Expression → Expression → PM Expression
  | 0, _, _ => pspin
  | f+1, args, leftExpr => do
    let st ← getSt
    if st.curr = .rparen then
      pure (.call leftExpr (if args.length = 0 then none else some args))
    else if args.length = 255 then
      pfail (.tooManyArguments st.curr)
    else do
      let arg ← parseExpression f .lowest
      advanceToken
      let st1 ← getSt
      match st1.curr with
      | .rparen => parseCallArgsLoop f (args ++ [arg]) leftExpr
      | .comma => do
          advanceToken
          parseCallArgsLoop f (args ++ [arg]) leftExpr
      | t => pfail (.expectedTokenNotFound "expression" t st1.line)
termination_by structural f => f

/-- parser/mod.rs `Parser::parse_function_expression` (parameter loop in
`parseFunctionParamsLoop`).  The closing-brace handling of the body is the
deliberate seam of the source: the body is parsed with
`parse_block_statement(true)`, which leaves the `}` unconsumed. -/
def parseFunctionExpression : Nat → PM Expression
  | 0 => pspin
  | f+1 => do
    advanceToken
    let st ← getSt
    let name ← (match st.curr with
      | .identifier b => do
          advanceToken
          pure (some b)
      | _ => pure (none : Option String))
    let st1 ← getSt
    match st1.curr with
    | .lparen => do
        advanceToken
        let params ← parseFunctionParamsLoop f []
        let st2 ← getSt
        match st2.curr with
        | .lbrace => do
            let body ← parseBlockStatement f true
            match body with
            | .block stmts =>
                pure (.function (.mk name
                  (if params.length = 0 then none else some params) stmts))
            | _ => ppanic
        | t => pfail (.expectedTokenNotFound "\x7b" t st2.line)
    | t => pfail (.expectedTokenNotFound "(" t st1.line)
termination_by structural f => f

/-- The parameter-collecting `loop` inside `parse_function_expression`. -/
def parseFunctionParamsLoop : Nat → List String → PM (List String)
  | 0, _ => pspin
  | f+1, params => do
    let st ← getSt
    if st.curr = .rparen then do
      advanceToken
      pure params
    else
      match st.curr with
      | .identifier nameBytes => do
          advanceToken
          let st1 ← getSt
          match st1.curr with
          | .rparen => parseFunctionParamsLoop f (params ++ [nameBytes])
          | .comma =>
              (match st1.peek with
               | .identifier _ => do
                   advanceToken
                   parseFunctionParamsLoop f (params ++ [nameBytes])
               | t => pfail (.expectedTokenNotFound "identifier" t st1.line))
          | t => pfail (.expectedTokenNotFound "identifier" t st1.line)
      | t => pfail (.expectedTokenNotFound "identifier" t st.line)
termination_by structural f => f

/-- parser/mod.rs `Parser::parse_expression`: the prefix dispatch on the
current token, followed by the precedence-climbing loop
(`parseExpressionLoop`). -/
def parseExpression : Nat → Precedence → PM Expression
  | 0, _ => pspin
  | f+1, precendence => do
    let st ← getSt
    let leftExpr ← (match st.curr with
      | .ktrue => pure (Expression.booleanLiteral true)
      | .kfalse => pure (Expression.booleanLiteral false)
      | .numberLiteral val _ => pure (Expression.numberLiteral val)
      | .stringLiteral bytes => pure (Expression.stringLiteral bytes)
      | .lparen => parsePrefixGroupedExpression f
      | .minus => parsePrefixOperatorExpression f
      | .bang => parsePrefixOperatorExpression f
      | .identifier identBytes => pure (Expression.ident identBytes)
      | .kprint => do
          advanceToken
          let expr ← parseExpression f precendence
          pure (Expression.print expr)
      | .kfun => parseFunctionExpression f
      | .knil => pure Expression.nilLiteral
      | t => pfail (.expectedTokenNotFound "expression" t st.line))
    parseExpressionLoop f precendence leftExpr
termination_by structural f => f

/-- The precedence-climbing `loop` inside `parse_expression`: stop at EOF
or when `precendence.value() >= peek.get_precedence().value()`; otherwise
fold the peeked operator into the left-hand side.  The final wildcard arm
is `unimplemented!` in the source. -/
def parseExpressionLoop : Nat → Precedence → Expression → PM Expression
  | 0, _, _ => pspin
  | f+1, precendence, leftExpr => do
    let st ← getSt
    if st.peek = .eof then
      pure leftExpr
    else if precendence.value ≥ st.peek.getPrecedence.value then
      pure leftExpr
    else
      match st.peek with
      | .plus | .minus | .slash | .star | .less | .lessequal | .greater
      | .greaterequal | .kand | .kor | .equalequal | .bangequal => do
          advanceToken
          let expr ← parseInfixOperatorExpression f leftExpr
          parseExpressionLoop f precendence expr
      | .lparen => do
          advanceToken
          let expr ← parseCallExpression f leftExpr
          parseExpressionLoop f precendence expr
      | .equal => do
          advanceToken
          let expr ← parseAssignmentInfixExpression f leftExpr
          parseExpressionLoop f precendence expr
      | _ => ppanic
termination_by structural f => f

/-- parser/mod.rs `Parser::parse_assignment_infix_expression`:
right-associative, identifier targets only. -/
def parseAssignmentInfixExpression : Nat → Expression → PM Expression
  | 0, _ => pspin
  | f+1, leftExpr => do
    advanceToken
    match leftExpr with
    | .ident _ => do
        let rightExpr ← parseExpression f .lowest
        pure (.infixExpression .equal leftExpr rightExpr)
    | _ => pfail .invalidAssignmentTarget
termination_by structural f => f

/-- parser/mod.rs `Parser::parse_var_declaration`. -/
def parseVarDeclaration : Nat → PM Statement
  | 0 => pspin
  | f+1 => do
    advanceToken
    let st ← getSt
    match st.curr with
    | .identifier identBytes =>
        (match st.peek with
         | .semicolon => pure (.varDeclaration identBytes none)
         | .equal => do
             advanceToken
             advanceToken
             let expr ← parseExpression f .lowest
             pure (.varDeclaration identBytes (some expr))
         | t => pfail (.expectedTokenNotFound "expression" t st.line))
    | t => pfail (.expectedTokenNotFound "Identifier" t st.line)
termination_by structural f => f

/-- parser/mod.rs `Parser::parse_if_statement`. -/
def parseIfStatement : Nat → PM Statement
  | 0 => pspin
  | f+1 => do
    advanceToken
    let expr ← parseExpression f .lowest
    advanceToken
    let ifBlock ← parseStatement f
    let st ← getSt
    if st.curr = .kelse then do
      advanceToken
      let elseBlock ← parseStatement f
      pure (.ifStatement expr ifBlock (some elseBlock))
    else
      pure (.ifStatement expr ifBlock none)
termination_by structural f => f

/-- parser/mod.rs `Parser::parse_return_statement`. -/
def parseReturnStatement : Nat → PM Statement
  | 0 => pspin
  | f+1 => do
    advanceToken
    let expr ← parseExpression f .lowest
    pure (.ret expr)
termination_by structural f => f

/-- parser/mod.rs `Parser::parse_while_statement`. -/
def parseWhileStatement : Nat → PM Statement
  | 0 => pspin
  | f+1 => do
    advanceToken
    let st ← getSt
    if st.curr = .lbrace then do
      let stmt ← parseStatement f
      pure (.whileLoop none stmt)
    else do
      let expr ← parseExpression f .lowest
      advanceToken
      let stmt ← parseStatement f
      pure (.whileLoop (some expr) stmt)
termination_by structural f => f

/-- parser/mod.rs `Parser::parse_for_statement_and_desugar_it`: optional
initializer statement, optional `;`-terminated condition, optional
increment statement, then the body; assembled as
`{ init?  while (cond) { body incr? } }`. -/
def parseForStatementAndDesugarIt : Nat → PM Statement
  | 0 => pspin
  | f+1 => do
    advanceToken
    let st ← getSt
    let varDeclarationO ← (if st.curr = .semicolon then do
        advanceToken
        pure (none : Option Statement)
      else do
        let stmt ← parseStatement f
        pure (some stmt))
    let st1 ← getSt
    let conditionalExpr ← (if st1.curr = .semicolon then
        pure (none : Option Expression)
      else do
        let e ← parseExpression f .lowest
        advanceToken
        pure (some e))
    advanceToken
    let st2 ← getSt
    let bodyAndIncr ← (if st2.curr = .lbrace then do
        let blockBody ← parseStatement f
        pure (blockBody, (none : Option Statement))
      else do
        let incrStmt ← parseSingleStatementWithoutSemicolon f
        advanceToken
        let blockBody ← parseStatement f
        pure (blockBody, some incrStmt))
    let whileBlockBody := [bodyAndIncr.1] ++
      (match bodyAndIncr.2 with | some v => [v] | none => [])
    let whileLoop := Statement.whileLoop conditionalExpr (.block whileBlockBody)
    let finalBlockStmts :=
      (match varDeclarationO with | some v => [v] | none => []) ++ [whileLoop]
    pure (.block finalBlockStmts)
termination_by structural f => f

/-- parser/mod.rs `Parser::parse_single_statement_without_semicolon`. -/
def parseSingleStatementWithoutSemicolon : Nat → PM Statement
  | 0 => pspin
  | f+1 => do
    let st ← getSt
    match st.curr with
    | .kprint => do
        advanceToken
        let expr ← parseExpression f .lowest
        pure (.print expr)
    | .kvar => parseVarDeclaration f
    | .kif => parseIfStatement f
    | .kwhile => parseWhileStatement f
    | .kfor => parseForStatementAndDesugarIt f
    | .kreturn => parseReturnStatement f
    | _ => do
        let expr ← parseExpression f .lowest
        pure (.expression expr)
termination_by structural f => f

/-- parser/mod.rs `Parser::ensure_semicolon_at_statement_end`. -/
def ensureSemicolonAtStatementEnd : PM Unit := fun st =>
  match st.peek with
  | .semicolon => advanceToken st
  | t => .failed (.expectedTokenNotFound ";" t st.line)

/-- parser/mod.rs `Parser::parse_single_statement`. -/
def parseSingleStatement : Nat → PM Statement
  | 0 => pspin
  | f+1 => do
    let stmt ← parseSingleStatementWithoutSemicolon f
    match stmt with
    | .ifStatement _ _ _ => pure stmt
    | .whileLoop _ _ => pure stmt
    | .block _ => pure stmt
    | .expression (.function _) => do
        advanceToken
        pure stmt
    | _ => do
        ensureSemicolonAtStatementEnd
        advanceToken
        pure stmt
termination_by structural f => f

/-- parser/mod.rs `Parser::parse_block_statement` (the loop is
`parseBlockLoop`; `isBlockPartOfExpression` decides whether the closing
brace is consumed). -/
def parseBlockStatement : Nat → Bool → PM Statement
  | 0, _ => pspin
  | f+1, isBlockPartOfExpression => do
    advanceToken
    parseBlockLoop f isBlockPartOfExpression []
termination_by structural f => f

/-- The statement-collecting `loop` inside `parse_block_statement`. -/
def parseBlockLoop : Nat → Bool → List Statement → PM Statement
  | 0, _, _ => pspin
  | f+1, isBlockPartOfExpression, stms => do
    let st ← getSt
    if st.curr = .rbrace then do
      (if !isBlockPartOfExpression then advanceToken else pure ())
      pure (.block stms)
    else do
      let stmt ← parseStatement f
      parseBlockLoop f isBlockPartOfExpression (stms ++ [stmt])
termination_by structural f => f

/-- parser/mod.rs `Parser::parse_statement`. -/
def parseStatement : Nat → PM Statement
  | 0 => pspin
  | f+1 => do
    let st ← getSt
    match st.curr with
    | .lbrace => parseBlockStatement f false
    | _ => parseSingleStatement f
termination_by structural f => f

/-- The statement-collecting `loop` inside `parse_program`. -/
def parseProgramLoop : Nat → List Statement → PM (List Statement)
  | 0, _ => pspin
  | f+1, statements => do
    let st ← getSt
    if st.curr = .eof then
      pure statements
    else do
      let stmt ← parseStatement f
      parseProgramLoop f (statements ++ [stmt])
termination_by structural f => f

/-- parser/mod.rs `Parser::parse_program`. -/
def parseProgram : Nat → PM (List Statement)
  | 0 => pspin
  | f+1 => parseProgramLoop f []

end

/-- Build the parser from a token stream and run `parse_program`. -/
def parseSourceProgram (fuel : Nat) (ts : TokenStream) : ParseOutcome (List Statement) :=
  match fromSource ts with
  | .ok _ st => parseProgram fuel st
  | .failed e => .failed e
  | .panicked => .panicked
  | .outOfFuel => .outOfFuel

/-- The `ParseError` of a failed outcome, if any. -/
def ParseOutcome.errOf : ParseOutcome α → Option ParseError
  | .failed e => some e
  | _ => none

/-- The parsed value of a successful outcome, if any. -/
def ParseOutcome.valOf : ParseOutcome α → Option α
  | .ok a _ => some a
  | _ => none

/-- Whether the outcome is a panic. -/
def ParseOutcome.isPanicked : ParseOutcome α → Bool
  | .panicked => true
  | _ => false

end Lox

namespace Lox

/-- Runtime values (interpreter/mod.rs `Object`).  A `Function` pairs the
function AST with the handle (arena index) of its captured environment; a
`NativeFunction` is a host callback — the host-side closure is modelled as
a Lean function producing the call's result. -/
inductive Object where
  | number (n : Rat)
  | boolean (b : Bool)
  | string (s : String)
  | function (fe : FunctionExpression) (env : Nat)
  | nativeFunction (fn : Unit → Object)
  | nil

/-- interpreter/mod.rs `Object::get_truthy_value`. -/
def Object.getTruthyValue : Object → Bool
  | .number _ => true
  | .boolean v => v
  | .string _ => true
  | .nil => false
  | .function _ _ => true
  | .nativeFunction _ => true

/-- Debug form of a function literal (parser/expression.rs
`impl Debug for FunctionExpression`): `<fn NAME>` or `<fn>`. -/
def debugFunctionExpression (fe : FunctionExpression) : String :=
  match fe.name with
  | some n => "<fn " ++ n ++ ">"
  | none => "<fn>"

mutual

/-- Debug form of an expression (parser/expression.rs
`impl Debug for Expression`). -/
def debugExpression : Expression → String
  | .nilLiteral => "nil"
  | .booleanLiteral v => if v then "true" else "false"
  | .numberLiteral v => f64Debug v
  | .stringLiteral s => s
  | .groupedExpression e => "(group " ++ debugExpression e ++ ")"
  | .prefixExpression operator expr =>
      "(" ++ operator.display ++ " " ++ debugExpression expr ++ ")"
  | .infixExpression operator leftExpr rightExpr =>
      "(" ++ operator.display ++ " " ++ debugExpression leftExpr ++ " " ++
        debugExpression rightExpr ++ ")"
  | .ident identBytes => "ident: " ++ identBytes
  | .print e => "print " ++ debugExpression e
  | .function fe => debugFunctionExpression fe
  | .call callee arguments =>
      debugExpression callee ++ "(" ++
        (match arguments with
         | some args => debugExpressionArgs args
         | none => "") ++ ")"

/-- Comma-separated debug forms of call arguments. -/
def debugExpressionArgs : List Expression → String
  | [] => ""
  | [e] => debugExpression e
  | e :: rest => debugExpression e ++ "," ++ debugExpressionArgs rest

end

/-- Display form of a value (interpreter/mod.rs `impl Display for Object`),
as written to the output sink by `print`. -/
def Object.display : Object → String
  | .number v => f64Display v
  | .boolean v => if v then "true" else "false"
  | .nil => "nil"
  | .string s => s
  | .function fe _ => debugFunctionExpression fe
  | .nativeFunction _ => "<native fn>"

/-- One scope (interpreter/mod.rs `Environment`): a map from identifier to
value (the `HashMap` is modelled as an association list) and an optional
handle to the parent environment. -/
structure Environment where
  values : List (String × Object)
  parentEnv : Option Nat

/-- Interpreter-global state: the arena of environments (standing in for
the `Rc<RefCell<_>>` heap), the lines written to the output sink so far,
and the parser's current line (`Parser::get_curr_line`, read when a
runtime error needs a line number). -/
structure EvalState where
  envs : List Environment
  output : List String
  parserLine : Nat

/-- `HashMap::insert`: replace the binding for `key` or add one. -/
def upsert : List (String × Object) → String → Object → List (String × Object)
  | [], key, val => [(key, val)]
  | (k, v) :: rest, key, val =>
      if k = key then (key, val) :: rest else (k, v) :: upsert rest key val

/-- `HashMap` lookup on the association list. -/
def lookupVar : List (String × Object) → String → Option Object
  | [], _ => none
  | (k, v) :: rest, key => if k = key then some v else lookupVar rest key

/-- interpreter/mod.rs `Environment::add` on the environment with handle
`env` (the handle is always live in the source; a dangling index leaves the
state unchanged — no run constructs one). -/
def envAdd (s : EvalState) (env : Nat) (key : String) (val : Object) : EvalState :=
  match s.envs[env]? with
  | some e => { s with envs := s.envs.set env { e with values := upsert e.values key val } }
  | none => s

/-- interpreter/mod.rs `Environment::is_declared`: walk the parent chain.
The walk carries fuel (the source recursion is bounded only by the chain
being acyclic, which every constructed chain is); `none` means the fuel ran
out or a handle was dangling, neither of which a run of the source
exhibits. -/
def isDeclaredFrom : Nat → List Environment → Nat → String → Option Bool
  | 0, _, _, _ => none
  | w+1, envs, env, key =>
    match envs[env]? with
    | none => none
    | some e =>
      if (lookupVar e.values key).isSome then some true
      else
        match e.parentEnv with
        | some p => isDeclaredFrom w envs p key
        | none => some false

/-- interpreter/mod.rs `Environment::get`: walk the parent chain; a name
declared nowhere yields `Nil` (the source's `map_or(Object::Nil, …)`
fallback). -/
def getFrom : Nat → List Environment → Nat → String → Option Object
  | 0, _, _, _ => none
  | w+1, envs, env, key =>
    match envs[env]? with
    | none => none
    | some e =>
      match lookupVar e.values key with
      | some v => some v
      | none =>
        match e.parentEnv with
        | some p => getFrom w envs p key
        | none => some Object.nil

/-- interpreter/mod.rs `Environment::assign`: mutate the nearest scope in
the chain that declares `key`; reaching a scope without the key and without
a parent is the source's `unreachable!()` — modelled, like fuel exhaustion
and dangling handles, as `none`. -/
def assignFrom : Nat → List Environment → Nat → String → Object → Option (List Environment)
  | 0, _, _, _, _ => none
  | w+1, envs, env, key, val =>
    match envs[env]? with
    | none => none
    | some e =>
      if (lookupVar e.values key).isSome then
        some (envs.set env { e with values := upsert e.values key val })
      else
        match e.parentEnv with
        | some p => assignFrom w envs p key val
        | none => none

/-- `is_declared` with enough fuel for any acyclic chain in the arena. -/
def isDeclared (envs : List Environment) (env : Nat) (key : String) : Option Bool :=
  isDeclaredFrom (envs.length + 1) envs env key

/-- `get` with enough fuel for any acyclic chain in the arena. -/
def getValue (envs : List Environment) (env : Nat) (key : String) : Option Object :=
  getFrom (envs.length + 1) envs env key

/-- `assign` with enough fuel for any acyclic chain in the arena. -/
def assign (envs : List Environment) (env : Nat) (key : String) (val : Object) :
    Option (List Environment) :=
  assignFrom (envs.length + 1) envs env key val

/-- Runtime errors (interpreter/mod.rs `EvaluationError`). -/
inductive EvaluationError where
  | parseError (e : ParseError)
  | expectedSomethingButGotOther (expected : String) (got : Object)
  | runtime (msg : String)
  | invalidOperation (left : Object) (operator : Token) (right : Object)
  | undefinedVariable (identifier : String)

/-- Outcome of an evaluation step: success or a returned error (each with
the state reached, whose output field holds everything written to the sink
so far), a panic, or fuel exhaustion (modelling divergence). -/
inductive Outcome (α : Type) where
  | ok (a : α) (s : EvalState)
  | err (e : EvaluationError) (s : EvalState)
  | panicked (site : String)
  | spin

/-- State-passing evaluation computation. -/
def EvalM (α : Type) : Type := EvalState → Outcome α

instance : Monad EvalM where
  pure a := fun s => .ok a s
  bind m f := fun s =>
    match m s with
    | .ok a s' => f a s'
    | .err e s' => .err e s'
    | .panicked site => .panicked site
    | .spin => .spin

def throwE (e : EvaluationError) : EvalM α := fun s => .err e s

def panicE (site : String) : EvalM α := fun _ => .panicked site

def spinE : EvalM α := fun _ => .spin

def ofExceptE : Except EvaluationError Object → EvalM Object
  | .ok v => pure v
  | .error e => throwE e

/-- `writeln!(self.writer, "{}", val)`: append one line to the sink. -/
def writeLine (line : String) : EvalM Unit := fun s =>
  .ok () { s with output := s.output ++ [line] }

/-- `Rc::new(RefCell::new(Environment::with_parent(parent)))` (also the
inline construction in the `Block` arm of `evaluate_stmt`): append a fresh
empty environment to the arena and return its handle. -/
def pushEnv (parent : Nat) : EvalM Nat := fun s =>
  .ok s.envs.length { s with envs := s.envs ++ [⟨[], some parent⟩] }

/-- `Environment::add` through a handle, as a computation. -/
def addVarM (env : Nat) (key : String) (val : Object) : EvalM Unit := fun s =>
  .ok () (envAdd s env key val)

/-- interpreter/mod.rs `evaluate_string_infix_operation`. -/
def evaluateStringInfixOperation (operator : Token) (left right : String) :
    Except EvaluationError Object :=
  match operator with
  | .plus => .ok (.string (left ++ right))
  | .equalequal => .ok (.boolean (left == right))
  | .bangequal => .ok (.boolean (left != right))
  | token => .error (.invalidOperation (.string left) token (.string right))

/-- interpreter/mod.rs `evaluate_numeric_infix_operation`; the wildcard arm
is `unimplemented!` in the source, modelled as `none`.  (`/` on `Rat`
differs from `f64` division only at a zero divisor, which no claim checked
here exercises.) -/
def evaluateNumericInfixOperation (operator : Token) (leftValue rightValue : Rat) :
    Option Object :=
  match operator with
  | .star => some (.number (leftValue * rightValue))
  | .slash => some (.number (leftValue / rightValue))
  | .plus => some (.number (leftValue + rightValue))
  | .minus => some (.number (leftValue - rightValue))
  | .equalequal => some (.boolean (leftValue == rightValue))
  | .bangequal => some (.boolean (leftValue != rightValue))
  | .less => some (.boolean (decide (leftValue < rightValue)))
  | .lessequal => some (.boolean (decide (leftValue ≤ rightValue)))
  | .greater => some (.boolean (decide (leftValue > rightValue)))
  | .greaterequal => some (.boolean (decide (leftValue ≥ rightValue)))
  | _ => none

/-- interpreter/mod.rs
`evaluate_infix_expression_for_different_types_of_operands`: the arm taken
when the operand pair is not two numbers, not two strings and not two
booleans.  `==` is true only for `nil == nil`; `!=` is true for every pair
reaching this function; `+` and the ordering/arithmetic operators produce
the two fixed runtime messages. -/
def evaluateInfixExpressionForDifferentTypesOfOperands (operator : Token)
    (left right : Object) : Except EvaluationError Object :=
  match operator with
  | .equalequal =>
      (match left, right with
       | .nil, .nil => .ok (.boolean true)
       | _, _ => .ok (.boolean false))
  | .bangequal => .ok (.boolean true)
  | .plus => .error (.runtime "Operands must be two numbers or two strings.")
  | .minus | .slash | .star | .less | .lessequal | .greater | .greaterequal =>
      .error (.runtime "Error: Operands must be numbers.")
  | _ => .error (.invalidOperation left operator right)

/-- interpreter/mod.rs `Interpreter::evaluate_funtion_expression` (sic): a
named function literal is immediately bound to itself in the current
environment; the closure value captures the current environment handle. -/
def evaluateFuntionExpression (fe : FunctionExpression) (env : Nat) : EvalM Object :=
  fun s =>
    match fe.name with
    | some nameBytes =>
        .ok (.function fe env) (envAdd s env nameBytes (.function fe env))
    | none => .ok (.function fe env) s

/-- interpreter/mod.rs `Interpreter::evaluate_native_function_call`: invoke
the host callback with no arguments. -/
def evaluateNativeFunctionCall (fn : Unit → Object) : EvalM Object :=
  pure (fn ())

end Lox

namespace Lox

/-- The four-way kind match at the end of interpreter/mod.rs
`Interpreter::evaluate_infix_expression`, dispatching on the pair of
already-evaluated operand values: two numbers, two strings, two booleans,
or the mixed-kind fallback.  Factored out of the infix evaluator so the
dispatch can be reasoned about directly. -/
def infixKindDispatch (operator : Token) (lv rv : Object) (s2 : EvalState) :
    Outcome Object :=
  match lv, rv with
  | .number left, .number right =>
      (match evaluateNumericInfixOperation operator left right with
       | some o => .ok o s2
       | none => .panicked "evaluate_numeric_infix_operation")
  | .string left, .string right =>
      (match evaluateStringInfixOperation operator left right with
       | .ok v => .ok v s2
       | .error e => .err e s2)
  | .boolean left, .boolean right =>
      (match operator with
       | .equalequal => .ok (.boolean (left == right)) s2
       | .bangequal => .ok (.boolean (left != right)) s2
       | _ => .err (.invalidOperation (.boolean left) operator (.boolean right)) s2)
  | _, _ =>
      (match evaluateInfixExpressionForDifferentTypesOfOperands operator lv rv with
       | .ok v => .ok v s2
       | .error e => .err e s2)


mutual

/-- interpreter/mod.rs `Interpreter::evaluate_and_expression`: evaluate the
left operand; if it is not truthy return it without evaluating the right
operand, otherwise evaluate and return the right operand. -/
def evaluateAndExpression : Nat → Expression → Expression → Nat → EvalM Object
  | 0, _, _, _ => spinE
  | f+1, leftExpr, rightExpr, env => do
    let leftValue ← evaluateExpression f leftExpr env
    if !leftValue.getTruthyValue then
      pure leftValue
    else
      evaluateExpression f rightExpr env
termination_by structural f => f

/-- interpreter/mod.rs `Interpreter::evaluate_or_expression`: evaluate the
left operand; if it is truthy return it without evaluating the right
operand, otherwise evaluate and return the right operand. -/
def evaluateOrExpression : Nat → Expression → Expression → Nat → EvalM Object
  | 0, _, _, _ => spinE
  | f+1, leftExpr, rightExpr, env => do
    let leftValue ← evaluateExpression f leftExpr env
    if leftValue.getTruthyValue then
      pure leftValue
    else
      evaluateExpression f rightExpr env
termination_by structural f => f

/-- interpreter/mod.rs `Interpreter::evaluate_assignment_infix_expression`:
the target must be an identifier; the right-hand side is evaluated first,
then the target must be declared somewhere in the chain
(`UndefinedVariable` otherwise), and only then is `Environment::assign`
invoked — whose not-found-anywhere branch is `unreachable!()`. -/
def evaluateAssignmentInfixExpression : Nat → Expression → Expression → Nat → EvalM Object
  | 0, _, _, _ => spinE
  | f+1, leftExpr, rightExpr, env =>
    match leftExpr with
    | .ident identBytes => do
        let value ← evaluateExpression f rightExpr env
        fun s =>
          match isDeclared s.envs env identBytes with
          | none => .spin
          | some false => .err (.undefinedVariable identBytes) s
          | some true =>
              match assign s.envs env identBytes value with
              | some envs' => .ok value { s with envs := envs' }
              | none => .panicked "Environment::assign"
    | e => throwE (.runtime ("expected expression but got " ++ debugExpression e))
termination_by structural f => f

/-- interpreter/mod.rs `Interpreter::evaluate_infix_expression`: `=`, `and`
and `or` are dispatched before operand evaluation; otherwise both operands
are evaluated (left first) and the pair is dispatched on its kinds:
numbers, strings, booleans, or the mixed-kind fallback. -/
def evaluateInfixExpression : Nat → Token → Expression → Expression → Nat → EvalM Object
  | 0, _, _, _, _ => spinE
  | f+1, operator, leftExpr, rightExpr, env =>
    if operator = .equal then
      evaluateAssignmentInfixExpression f leftExpr rightExpr env
    else if operator = .kand then
      evaluateAndExpression f leftExpr rightExpr env
    else if operator = .kor then
      evaluateOrExpression f leftExpr rightExpr env
    else do
      let leftValue ← evaluateExpression f leftExpr env
      let rightValue ← evaluateExpression f rightExpr env
      fun s => infixKindDispatch operator leftValue rightValue s
termination_by structural f => f

/-- interpreter/mod.rs `Interpreter::evaluate_prefix_expression`: `!` is
truthiness negation; `-` requires a number (the runtime message cites the
parser's current line); any other operator is `unreachable!`. -/
def evaluatePrefixExpression : Nat → Token → Expression → Nat → EvalM Object
  | 0, _, _, _ => spinE
  | f+1, operator, expression, env => do
    let value ← evaluateExpression f expression env
    match operator with
    | .bang => pure (.boolean (!value.getTruthyValue))
    | .minus =>
        (match value with
         | .number v => pure (.number (-v))
         | _ => fun s =>
             .err (.runtime ("Error: Operand must be a number.\n[line " ++
               toString s.parserLine ++ "]")) s)
    | _ => panicE "evaluate_prefix_expression"
termination_by structural f => f

/-- interpreter/mod.rs `Interpreter::evaluate_expression`. -/
def evaluateExpression : Nat → Expression → Nat → EvalM Object
  | 0, _, _ => spinE
  | f+1, expression, env =>
    match expression with
    | .nilLiteral => pure .nil
    | .ident identBytes => fun s =>
        (match isDeclared s.envs env identBytes with
         | none => .spin
         | some false => .err (.undefinedVariable identBytes) s
         | some true =>
             match getValue s.envs env identBytes with
             | none => .spin
             | some v => .ok v s)
    | .booleanLiteral v => pure (.boolean v)
    | .numberLiteral v => pure (.number v)
    | .stringLiteral bytes => pure (.string bytes)
    | .groupedExpression expr => evaluateExpression f expr env
    | .prefixExpression operator expr => evaluatePrefixExpression f operator expr env
    | .infixExpression operator leftExpr rightExpr =>
        evaluateInfixExpression f operator leftExpr rightExpr env
    | .print e => do
        let val ← evaluateExpression f e env
        writeLine val.display
        pure .nil
    | .function fe => evaluateFuntionExpression fe env
    | .call callee arguments => evaluateFunctionCall f callee arguments env
termination_by structural f => f

/-- interpreter/mod.rs `Interpreter::evaluate_function_call`: evaluate the
callee; native functions are invoked directly; for a closure the argument
count must equal the parameter count (else the `Expected {n} arguments but
got {m}.` runtime error, raised before anything else happens), then a fresh
environment parented to the closure's captured environment is created,
arguments are evaluated left to right against the caller's environment and
bound positionally, and the body runs in the fresh environment
(`runFunctionBody`). -/
def evaluateFunctionCall : Nat → Expression → Option (List Expression) → Nat → EvalM Object
  | 0, _, _, _ => spinE
  | f+1, callee, arguments, env => do
    let calleeValue ← evaluateExpression f callee env
    match calleeValue with
    | .function fe capturedEnv =>
        let argumentsCount := (arguments.map List.length).getD 0
        let parameterCount := (fe.parameters.map List.length).getD 0
        if argumentsCount ≠ parameterCount then
          throwE (.runtime ("Expected " ++ toString parameterCount ++
            " arguments but got " ++ toString argumentsCount ++ "."))
        else do
          let childEnv ← pushEnv capturedEnv
          bindArguments f (fe.parameters.getD []) (arguments.getD []) env childEnv
          runFunctionBody f fe.body childEnv
    | .nativeFunction nfe => evaluateNativeFunctionCall nfe
    | _ => throwE (.runtime "Callee must be a function")
termination_by structural f => f

/-- The parameter-binding `while` loop inside `evaluate_function_call`:
for each parameter in order, evaluate the matching argument in the caller's
environment and bind it in the callee's fresh environment.  The loop runs
`parameter_count` times; `arguments.next().unwrap()` on a drained argument
iterator would panic (the arity check rules it out). -/
def bindArguments : Nat → List String → List Expression → Nat → Nat → EvalM Unit
  | 0, _, _, _, _ => spinE
  | _+1, [], _, _, _ => pure ()
  | _+1, _ :: _, [], _, _ => panicE "arguments.next().unwrap()"
  | f+1, parameter :: parameters, argument :: argumentsRest, env, childEnv => do
    let argVal ← evaluateExpression f argument env
    addVarM childEnv parameter argVal
    bindArguments f parameters argumentsRest env childEnv
termination_by structural f => f

/-- The body loop inside `evaluate_function_call`: run the body statements
in order; the first return-signal supplies the call's result; falling off
the end yields `Nil`. -/
def runFunctionBody : Nat → List Statement → Nat → EvalM Object
  | 0, _, _ => spinE
  | _+1, [], _ => pure .nil
  | f+1, stmt :: rest, childEnv => do
    let r ← evaluateStmt f stmt childEnv
    match r with
    | some val => pure val
    | none => runFunctionBody f rest childEnv
termination_by structural f => f

/-- interpreter/mod.rs `Interpreter::evaluate_stmt`.  The source returns
`Either<Void, Object>`; `Option Object` models it, `some v` being the
return-signal `Right(v)`. -/
def evaluateStmt : Nat → Statement → Nat → EvalM (Option Object)
  | 0, _, _ => spinE
  | f+1, stmt, env =>
    match stmt with
    | .expression e => do
        let _ ← evaluateExpression f e env
        pure none
    | .print e => do
        let val ← evaluateExpression f e env
        writeLine val.display
        pure none
    | .varDeclaration identifier exprO =>
        (match exprO with
         | some expr => do
             let val ← evaluateExpression f expr env
             addVarM env identifier val
             pure none
         | none => do
             addVarM env identifier .nil
             pure none)
    | .block stmts => do
        let childEnv ← pushEnv env
        evalStmtSeq f stmts childEnv
    | .ifStatement cond ifBlock elseBlock =>
        evaluateIfStatement f cond ifBlock elseBlock env
    | .whileLoop exprO block => evaluateWhileStatement f exprO block env
    | .ret exp => do
        let v ← evaluateExpression f exp env
        pure (some v)
termination_by structural f => f

/-- The statement loop of the `Block` arm of `evaluate_stmt`: run the
statements in order in the block's fresh environment, propagating the first
return-signal immediately. -/
def evalStmtSeq : Nat → List Statement → Nat → EvalM (Option Object)
  | 0, _, _ => spinE
  | _+1, [], _ => pure none
  | f+1, stmt :: rest, env => do
    let r ← evaluateStmt f stmt env
    match r with
    | some val => pure (some val)
    | none => evalStmtSeq f rest env
termination_by structural f => f

/-- interpreter/mod.rs `Interpreter::evaluate_while_statement`: an absent
condition means `true`; the body runs while the condition is truthy; a
return-signal from the body propagates out immediately. -/
def evaluateWhileStatement : Nat → Option Expression → Statement → Nat → EvalM (Option Object)
  | 0, _, _, _ => spinE
  | f+1, exprO, block, env => do
    let val ← (match exprO with
      | some expr => do
          let x ← evaluateExpression f expr env
          pure x.getTruthyValue
      | none => pure true)
    if !val then
      pure none
    else do
      let r ← evaluateStmt f block env
      match r with
      | some v => pure (some v)
      | none => evaluateWhileStatement f exprO block env
termination_by structural f => f

/-- interpreter/mod.rs `Interpreter::evaluate_if_statement`: branches run
in the current environment; a return-signal propagates. -/
def evaluateIfStatement : Nat → Expression → Statement → Option Statement → Nat → EvalM (Option Object)
  | 0, _, _, _, _ => spinE
  | f+1, expr, ifBlock, elseBlock, env => do
    let val ← evaluateExpression f expr env
    if val.getTruthyValue then
      evaluateStmt f ifBlock env
    else
      match elseBlock with
      | some eb => evaluateStmt f eb env
      | none => pure none
termination_by structural f => f

end

/-- The statement loop of interpreter/mod.rs
`Interpreter::evaluate_program`: a return-signal at the top level is the
`return statements can only be in functions` runtime error. -/
def evalProgramLoop : Nat → List Statement → Nat → EvalM Unit
  | 0, _, _ => spinE
  | _+1, [], _ => pure ()
  | f+1, stmt :: rest, env => do
    let r ← evaluateStmt f stmt env
    match r with
    | some _ => throwE (.runtime "return statements can only be in functions")
    | none => evalProgramLoop f rest env

/-- interpreter/mod.rs `Interpreter::evaluate_program`: parse-independent
part — run the statements against a fresh global environment pre-seeded
with the host `clock` binding. -/
def evaluateProgram (fuel : Nat) (statements : List Statement)
    (clockFn : Unit → Object) (parserLine : Nat) : Outcome Unit :=
  evalProgramLoop fuel statements 0
    { envs := [⟨[("clock", Object.nativeFunction clockFn)], none⟩],
      output := [], parserLine := parserLine }

/-- The value of a successful outcome. -/
def Outcome.valueOf : Outcome α → Option α
  | .ok a _ => some a
  | _ => none

/-- The error of a failed outcome. -/
def Outcome.errorOf : Outcome α → Option EvaluationError
  | .err e _ => some e
  | _ => none

/-- The output written to the sink, for an outcome carrying a state. -/
def Outcome.outputOf : Outcome α → Option (List String)
  | .ok _ s => some s.output
  | .err _ s => some s.output
  | _ => none

end Lox

namespace Lox

/-- Applying a bound computation to a state steps through the underlying
match on the first computation's outcome. -/
theorem EvalM.bind_apply {α β} (m : EvalM α) (k : α → EvalM β) (s : EvalState) :
    (m >>= k) s = (match m s with
      | .ok a s' => k a s'
      | .err e s' => .err e s'
      | .panicked site => .panicked site
      | .spin => .spin) := rfl

/-- C1.  The claim states that with the lowest minimum precedence a
following `=`, `and`, `or` or `(` is consumed and folded because its
precedence strictly exceeds the minimum.  In the code,
`Token::get_precedence` sends all four tokens to `Precedence::Lowest`, so
the climbing loop's guard `min_precedence.value() >= peek.get_precedence().value()`
stops the fold; parsing the statement `a = 1;` therefore leaves the `=`
unconsumed and fails expecting `;`, contradicting the claim (and the
repository's own interpreter tests, which expect assignments, `and`/`or`
and calls to parse). -/
theorem c1_pratt_loop_never_folds_assignment_and_or_call :
    Token.equal.getPrecedence = .lowest ∧
    Token.kand.getPrecedence = .lowest ∧
    Token.kor.getPrecedence = .lowest ∧
    Token.lparen.getPrecedence = .lowest ∧
    Precedence.lowest.value ≥ Token.equal.getPrecedence.value ∧
    (parseSourceProgram 99
      [(Except.ok (.identifier "a"), 1), (Except.ok .equal, 1),
       (Except.ok (.numberLiteral 1 "1"), 1), (Except.ok .semicolon, 1),
       (Except.ok .eof, 1)]).errOf =
      some (.expectedTokenNotFound ";" .equal 1) ∧
    (parseSourceProgram 99
      [(Except.ok (.identifier "a"), 1), (Except.ok .equal, 1),
       (Except.ok (.numberLiteral 1 "1"), 1), (Except.ok .semicolon, 1),
       (Except.ok .eof, 1)]).valOf = none :=
  ⟨rfl, rfl, rfl, rfl, by decide, rfl, rfl⟩

/-- C2.  A lexical error in the first or second stream position is indeed
surfaced as `ParseError::LexicalError` by `Parser::from_source`, but a
lexical error reached later, while the parser advances, hits the
`.next().unwrap().unwrap()` in `Parser::advance_token` and panics instead
of being returned as a parse error — here parsing `1 + @`. -/
theorem c2_lexical_error_after_lookahead_panics :
    (fromSource [(Except.error (.unterminatedString 3), 3)]).errOf =
      some (.lexicalError (.unterminatedString 3)) ∧
    (fromSource [(Except.ok (.numberLiteral 1 "1"), 1),
      (Except.error (.unExpectedToken '@' 1), 1)]).errOf =
      some (.lexicalError (.unExpectedToken '@' 1)) ∧
    (parseSourceProgram 99
      [(Except.ok (.numberLiteral 1 "1"), 1), (Except.ok .plus, 1),
       (Except.error (.unExpectedToken '@' 1), 1)]).isPanicked = true :=
  ⟨rfl, rfl, rfl⟩

/-- C9.  The spec's example `for (var i = 0; i < 3; i = i + 1) print i;`
does not parse: `parse_for_statement_and_desugar_it` never consumes the
`(` after `for`, so the initializer parse starts at `(` and then fails on
`var` with an expected-expression error (and the increment `i = i + 1`
could not parse either, by the C1 precedence defect).  The desugaring
structure itself is present: the paren-less, increment-less variant
`for var i = 0; i < 3; { print i; }` parses to a block holding the
initializer followed by a while-loop whose body wraps the original body
in a block. -/
theorem c9_for_desugaring_and_example :
    (parseSourceProgram 99
      [(Except.ok .kfor, 1), (Except.ok .lparen, 1), (Except.ok .kvar, 1),
       (Except.ok (.identifier "i"), 1), (Except.ok .equal, 1),
       (Except.ok (.numberLiteral 0 "0"), 1), (Except.ok .semicolon, 1),
       (Except.ok (.identifier "i"), 1), (Except.ok .less, 1),
       (Except.ok (.numberLiteral 3 "3"), 1), (Except.ok .semicolon, 1),
       (Except.ok (.identifier "i"), 1), (Except.ok .equal, 1),
       (Except.ok (.identifier "i"), 1), (Except.ok .plus, 1),
       (Except.ok (.numberLiteral 1 "1"), 1), (Except.ok .rparen, 1),
       (Except.ok .kprint, 1), (Except.ok (.identifier "i"), 1),
       (Except.ok .semicolon, 1), (Except.ok .eof, 1)]).errOf =
      some (.expectedTokenNotFound "expression" .kvar 1) ∧
    (parseSourceProgram 99
      [(Except.ok .kfor, 1), (Except.ok .kvar, 1), (Except.ok (.identifier "i"), 1),
       (Except.ok .equal, 1), (Except.ok (.numberLiteral 0 "0"), 1),
       (Except.ok .semicolon, 1), (Except.ok (.identifier "i"), 1),
       (Except.ok .less, 1), (Except.ok (.numberLiteral 3 "3"), 1),
       (Except.ok .semicolon, 1), (Except.ok .lbrace, 1), (Except.ok .kprint, 1),
       (Except.ok (.identifier "i"), 1), (Except.ok .semicolon, 1),
       (Except.ok .rbrace, 1), (Except.ok .eof, 1)]).valOf =
      some [.block [.varDeclaration "i" (some (.numberLiteral 0)),
        .whileLoop (some (.infixExpression .less (.ident "i") (.numberLiteral 3)))
          (.block [.block [.print (.ident "i")]])]] :=
  ⟨rfl, rfl⟩

/-- C3, counterexample.  The claim asserts that `!=` is the exact negation
of `==` on every operand pair and that `nil != nil` evaluates to false; in
the code both `nil == nil` and `nil != nil` evaluate to `true`, because a
`(Nil, Nil)` pair reaches the mixed-kind fallback whose `!=` arm returns
`true` unconditionally. -/
theorem c3_nil_bangequal_nil_evaluates_to_true :
    evaluateExpression 9 (.infixExpression .bangequal .nilLiteral .nilLiteral) 0
      ⟨[⟨[], none⟩], [], 1⟩ = .ok (.boolean true) ⟨[⟨[], none⟩], [], 1⟩ ∧
    evaluateExpression 9 (.infixExpression .equalequal .nilLiteral .nilLiteral) 0
      ⟨[⟨[], none⟩], [], 1⟩ = .ok (.boolean true) ⟨[⟨[], none⟩], [], 1⟩ :=
  ⟨rfl, rfl⟩

/-- C4, counterexample.  The claim asserts the fixed runtime messages also
when both operands are of the same non-number kind, naming two booleans and
two strings under `-`; in the code such pairs take the same-kind `Boolean`
or `String` match arm and fail with an `InvalidOperation` error instead of
a `Runtime` message error. -/
theorem c4_same_kind_pairs_give_invalid_operation :
    evaluateExpression 9
      (.infixExpression .plus (.booleanLiteral true) (.booleanLiteral true)) 0
      ⟨[⟨[], none⟩], [], 1⟩ =
      .err (.invalidOperation (.boolean true) .plus (.boolean true))
        ⟨[⟨[], none⟩], [], 1⟩ ∧
    evaluateExpression 9
      (.infixExpression .minus (.stringLiteral "a") (.stringLiteral "b")) 0
      ⟨[⟨[], none⟩], [], 1⟩ =
      .err (.invalidOperation (.string "a") .minus (.string "b"))
        ⟨[⟨[], none⟩], [], 1⟩ ∧
    (∀ msg : String,
      Outcome.err (α := Object)
          (.invalidOperation (.boolean true) .plus (.boolean true))
          ⟨[⟨[], none⟩], [], 1⟩ ≠
        .err (.runtime msg) ⟨[⟨[], none⟩], [], 1⟩) :=
  ⟨rfl, rfl, fun _ h => by injection h with h1 _; exact EvaluationError.noConfusion h1⟩

end Lox

namespace Lox

/-- Discriminant of a value's kind, used to state cross-kind properties. -/
def Object.kindIndex : Object → Nat
  | .number _ => 0
  | .boolean _ => 1
  | .string _ => 2
  | .function _ _ => 3
  | .nativeFunction _ => 4
  | .nil => 5

/-- Whether an operand pair reaches the mixed-kind fallback
(`evaluate_infix_expression_for_different_types_of_operands`) of
`evaluate_infix_expression`: every pair that is not two numbers, not two
strings and not two booleans. -/
def Object.mixedKindArm : Object → Object → Bool
  | .number _, .number _ => false
  | .string _, .string _ => false
  | .boolean _, .boolean _ => false
  | _, _ => true


/-- Stepping lemma for `evaluate_infix_expression` on an operator that is
not `=`, `and` or `or`: both operands are evaluated left to right and the
result is dispatched on the pair of value kinds, exactly as in the source's
four-way match. -/
theorem evaluateInfixExpression_dispatch (f : Nat) (operator : Token)
    (lexp rexp : Expression) (env : Nat) (s s1 s2 : EvalState) (lv rv : Object)
    (hq : operator ≠ .equal) (ha : operator ≠ .kand) (ho : operator ≠ .kor)
    (h1 : evaluateExpression f lexp env s = .ok lv s1)
    (h2 : evaluateExpression f rexp env s1 = .ok rv s2) :
    evaluateInfixExpression (f+1) operator lexp rexp env s =
      infixKindDispatch operator lv rv s2 := by
  simp only [evaluateInfixExpression, if_neg hq, if_neg ha, if_neg ho,
    EvalM.bind_apply, h1, h2]

/-- C3, amended.  When the operands of `==`/`!=` evaluate to values of
different kinds, `==` yields false and `!=` yields true; `nil == nil`
yields true; and `!=` is the exact boolean negation of `==` for every
operand pair except `nil`/`nil`, where the code yields true for both `==`
and `!=` (the `(Nil, Nil)` pair reaches the mixed-kind fallback, whose
`!=` arm returns true unconditionally). -/
theorem c3_cross_kind_equality_amended (f : Nat) (lexp rexp : Expression)
    (env : Nat) (s s1 s2 : EvalState) (lv rv : Object)
    (h1 : evaluateExpression f lexp env s = .ok lv s1)
    (h2 : evaluateExpression f rexp env s1 = .ok rv s2) :
    (lv.kindIndex ≠ rv.kindIndex →
      evaluateInfixExpression (f+1) .equalequal lexp rexp env s =
        .ok (.boolean false) s2 ∧
      evaluateInfixExpression (f+1) .bangequal lexp rexp env s =
        .ok (.boolean true) s2) ∧
    (lv = .nil → rv = .nil →
      evaluateInfixExpression (f+1) .equalequal lexp rexp env s =
        .ok (.boolean true) s2) ∧
    (¬(lv = .nil ∧ rv = .nil) →
      ∃ b : Bool,
        evaluateInfixExpression (f+1) .equalequal lexp rexp env s =
          .ok (.boolean b) s2 ∧
        evaluateInfixExpression (f+1) .bangequal lexp rexp env s =
          .ok (.boolean !b) s2) := by
  have dq := evaluateInfixExpression_dispatch f .equalequal lexp rexp env s s1 s2
    lv rv (by decide) (by decide) (by decide) h1 h2
  have db := evaluateInfixExpression_dispatch f .bangequal lexp rexp env s s1 s2
    lv rv (by decide) (by decide) (by decide) h1 h2
  refine ⟨?_, ?_, ?_⟩
  · intro hk
    cases lv <;> cases rv
    case number.number => exact absurd rfl hk
    case boolean.boolean => exact absurd rfl hk
    case string.string => exact absurd rfl hk
    case function.function => exact absurd rfl hk
    case nativeFunction.nativeFunction => exact absurd rfl hk
    case nil.nil => exact absurd rfl hk
    all_goals exact ⟨dq.trans rfl, db.trans rfl⟩
  · intro hl hr
    subst hl
    subst hr
    exact dq.trans rfl
  · intro hnn
    cases lv <;> cases rv
    case nil.nil => exact absurd ⟨rfl, rfl⟩ hnn
    all_goals exact ⟨_, dq.trans rfl, db.trans rfl⟩

/-- Helper for C4: when the operand pair reaches the mixed-kind fallback
and the fallback maps the operator to a `Runtime` message, the whole infix
evaluation fails with exactly that message (and the state reached by
evaluating the two operands). -/
theorem c4_fallback_message (f : Nat) (operator : Token)
    (lexp rexp : Expression) (env : Nat) (s s1 s2 : EvalState) (lv rv : Object)
    (msg : String)
    (hq : operator ≠ .equal) (ha : operator ≠ .kand) (ho : operator ≠ .kor)
    (h1 : evaluateExpression f lexp env s = .ok lv s1)
    (h2 : evaluateExpression f rexp env s1 = .ok rv s2)
    (hm : lv.mixedKindArm rv = true)
    (hmsg : evaluateInfixExpressionForDifferentTypesOfOperands operator lv rv =
      .error (.runtime msg)) :
    evaluateInfixExpression (f+1) operator lexp rexp env s =
      .err (.runtime msg) s2 := by
  rw [evaluateInfixExpression_dispatch f operator lexp rexp env s s1 s2 lv rv
    hq ha ho h1 h2]
  cases lv <;> cases rv <;>
    simp_all [infixKindDispatch, Object.mixedKindArm]

/-- C4, amended.  When an infix arithmetic/comparison operand pair reaches
the mixed-kind fallback — that is, when the values are not two numbers, not
two strings and not two booleans — `+` fails with exactly
`Operands must be two numbers or two strings.` and the other arithmetic and
ordering operators fail with exactly `Error: Operands must be numbers.`.
(Two booleans, or two strings under an operator other than `+`/`==`/`!=`,
instead take the same-kind match arms and fail with an `InvalidOperation`
error, not with these messages.) -/
theorem c4_mixed_kind_operand_messages_amended (f : Nat) (lexp rexp : Expression)
    (env : Nat) (s s1 s2 : EvalState) (lv rv : Object)
    (h1 : evaluateExpression f lexp env s = .ok lv s1)
    (h2 : evaluateExpression f rexp env s1 = .ok rv s2)
    (hm : lv.mixedKindArm rv = true) :
    evaluateInfixExpression (f+1) .plus lexp rexp env s =
      .err (.runtime "Operands must be two numbers or two strings.") s2 ∧
    ∀ operator : Token,
      operator ∈ [Token.minus, .slash, .star, .less, .lessequal, .greater,
        .greaterequal] →
      evaluateInfixExpression (f+1) operator lexp rexp env s =
        .err (.runtime "Error: Operands must be numbers.") s2 := by
  constructor
  · exact c4_fallback_message f .plus lexp rexp env s s1 s2 lv rv _
      (by decide) (by decide) (by decide) h1 h2 hm rfl
  · intro operator hop
    fin_cases hop <;>
      exact c4_fallback_message f _ lexp rexp env s s1 s2 lv rv _
        (by decide) (by decide) (by decide) h1 h2 hm rfl


/-- Stepping lemma: when the first computation succeeds, binding continues
with its value and state. -/
theorem EvalM.bind_ok {α β : Type} {m : EvalM α} {a : α} {s s' : EvalState}
    {k : α → EvalM β} (h : m s = .ok a s') : (m >>= k) s = k a s' := by
  rw [EvalM.bind_apply, h]

/-- C5.  Calling a user-defined function whose argument count differs from
its parameter count fails with exactly the runtime message
`Expected {n} arguments but got {m}.` (n the parameter count, m the
argument count), and the state is exactly the state after evaluating the
callee: no argument is evaluated, no environment is created, no body
statement runs and nothing is printed. -/
theorem c5_wrong_arity_fails_before_body (f : Nat) (callee : Expression)
    (argumentsO : Option (List Expression)) (env : Nat) (s s1 : EvalState)
    (fe : FunctionExpression) (capturedEnv : Nat)
    (h1 : evaluateExpression f callee env s = .ok (.function fe capturedEnv) s1)
    (hn : (argumentsO.map List.length).getD 0 ≠ (fe.parameters.map List.length).getD 0) :
    evaluateFunctionCall (f+1) callee argumentsO env s =
      .err (.runtime ("Expected " ++ toString ((fe.parameters.map List.length).getD 0) ++
        " arguments but got " ++ toString ((argumentsO.map List.length).getD 0) ++ "."))
        s1 := by
  simp only [evaluateFunctionCall, EvalM.bind_ok h1]
  rw [if_pos hn]
  rfl

/-- C6.  Evaluating an assignment whose target identifier is declared in no
environment of the chain fails with an undefined-variable error, and the
resulting state is exactly the state after evaluating the right-hand side:
the assignment itself mutates no environment and declares nothing. -/
theorem c6_assign_undeclared_fails_without_mutation (f : Nat) (name : String)
    (rexp : Expression) (env : Nat) (s s1 : EvalState) (v : Object)
    (h1 : evaluateExpression f rexp env s = .ok v s1)
    (hd : isDeclared s1.envs env name = some false) :
    evaluateInfixExpression (f+2) .equal (.ident name) rexp env s =
      .err (.undefinedVariable name) s1 := by
  show evaluateAssignmentInfixExpression (f+1) (.ident name) rexp env s = _
  simp only [evaluateAssignmentInfixExpression, EvalM.bind_ok h1]
  simp only [hd]

/-- C7.  `and` and `or` on infix nodes are dispatched to the special
short-circuit evaluators; `and` returns the left value, with the state as
of the left operand's evaluation (so none of the right operand's effects),
whenever the left value's truthiness is false, and otherwise continues as
exactly the evaluation of the right operand; `or` is the mirror. -/
theorem c7_logical_operators_short_circuit (f : Nat) (lexp rexp : Expression)
    (env : Nat) (s s1 : EvalState) (lv : Object)
    (h1 : evaluateExpression f lexp env s = .ok lv s1) :
    (evaluateInfixExpression (f+2) .kand lexp rexp env s =
      evaluateAndExpression (f+1) lexp rexp env s) ∧
    (evaluateInfixExpression (f+2) .kor lexp rexp env s =
      evaluateOrExpression (f+1) lexp rexp env s) ∧
    (lv.getTruthyValue = false →
      evaluateAndExpression (f+1) lexp rexp env s = .ok lv s1) ∧
    (lv.getTruthyValue = true →
      evaluateAndExpression (f+1) lexp rexp env s = evaluateExpression f rexp env s1) ∧
    (lv.getTruthyValue = true →
      evaluateOrExpression (f+1) lexp rexp env s = .ok lv s1) ∧
    (lv.getTruthyValue = false →
      evaluateOrExpression (f+1) lexp rexp env s = evaluateExpression f rexp env s1) := by
  refine ⟨rfl, rfl, ?_, ?_, ?_, ?_⟩ <;> intro ht <;>
    simp only [evaluateAndExpression, evaluateOrExpression, EvalM.bind_ok h1, ht,
      Bool.not_false, Bool.not_true, if_true, if_false, ite_true, ite_false] <;>
    rfl


/-- Witness for C3 at `1 == "1"` and `1 != "1"`. -/
theorem c3_cross_kind_equality_amended_witness :
    evaluateInfixExpression 6 .equalequal (.numberLiteral 1) (.stringLiteral "1") 0
      ⟨[⟨[], none⟩], [], 1⟩ = .ok (.boolean false) ⟨[⟨[], none⟩], [], 1⟩ ∧
    evaluateInfixExpression 6 .bangequal (.numberLiteral 1) (.stringLiteral "1") 0
      ⟨[⟨[], none⟩], [], 1⟩ = .ok (.boolean true) ⟨[⟨[], none⟩], [], 1⟩ :=
  (c3_cross_kind_equality_amended 5 (.numberLiteral 1) (.stringLiteral "1") 0
    ⟨[⟨[], none⟩], [], 1⟩ ⟨[⟨[], none⟩], [], 1⟩ ⟨[⟨[], none⟩], [], 1⟩
    (.number 1) (.string "1") rfl rfl).1 (by decide)

/-- Witness for C4 at `1 + nil` and `1 - nil`. -/
theorem c4_mixed_kind_operand_messages_amended_witness :
    evaluateInfixExpression 6 .plus (.numberLiteral 1) .nilLiteral 0
      ⟨[⟨[], none⟩], [], 1⟩ =
      .err (.runtime "Operands must be two numbers or two strings.")
        ⟨[⟨[], none⟩], [], 1⟩ ∧
    evaluateInfixExpression 6 .minus (.numberLiteral 1) .nilLiteral 0
      ⟨[⟨[], none⟩], [], 1⟩ =
      .err (.runtime "Error: Operands must be numbers.") ⟨[⟨[], none⟩], [], 1⟩ :=
  ⟨(c4_mixed_kind_operand_messages_amended 5 (.numberLiteral 1) .nilLiteral 0
      ⟨[⟨[], none⟩], [], 1⟩ ⟨[⟨[], none⟩], [], 1⟩ ⟨[⟨[], none⟩], [], 1⟩
      (.number 1) .nil rfl rfl rfl).1,
   (c4_mixed_kind_operand_messages_amended 5 (.numberLiteral 1) .nilLiteral 0
      ⟨[⟨[], none⟩], [], 1⟩ ⟨[⟨[], none⟩], [], 1⟩ ⟨[⟨[], none⟩], [], 1⟩
      (.number 1) .nil rfl rfl rfl).2 .minus (by simp)⟩

/-- Witness for C5: a two-parameter function called with four arguments
fails with `Expected 2 arguments but got 4.` and its body (a print) leaves
no trace in the output. -/
theorem c5_wrong_arity_fails_before_body_witness :
    evaluateFunctionCall 6
      (.function (.mk (some "f") (some ["a", "b"]) [.print (.stringLiteral "body")]))
      (some [.numberLiteral 1, .numberLiteral 2, .numberLiteral 3, .numberLiteral 4])
      0 ⟨[⟨[], none⟩], [], 1⟩ =
      .err (.runtime "Expected 2 arguments but got 4.")
        ⟨[⟨[("f", .function
            (.mk (some "f") (some ["a", "b"]) [.print (.stringLiteral "body")]) 0)],
          none⟩], [], 1⟩ :=
  c5_wrong_arity_fails_before_body 5
    (.function (.mk (some "f") (some ["a", "b"]) [.print (.stringLiteral "body")]))
    (some [.numberLiteral 1, .numberLiteral 2, .numberLiteral 3, .numberLiteral 4])
    0 ⟨[⟨[], none⟩], [], 1⟩
    ⟨[⟨[("f", .function
        (.mk (some "f") (some ["a", "b"]) [.print (.stringLiteral "body")]) 0)],
      none⟩], [], 1⟩
    (.mk (some "f") (some ["a", "b"]) [.print (.stringLiteral "body")]) 0
    rfl (by decide)

/-- Witness for C6: `x = 5` with `x` declared nowhere fails with an
undefined-variable error and leaves the single empty environment — and the
output — untouched. -/
theorem c6_assign_undeclared_fails_without_mutation_witness :
    evaluateInfixExpression 7 .equal (.ident "x") (.numberLiteral 5) 0
      ⟨[⟨[], none⟩], [], 1⟩ =
      .err (.undefinedVariable "x") ⟨[⟨[], none⟩], [], 1⟩ :=
  c6_assign_undeclared_fails_without_mutation 5 "x" (.numberLiteral 5) 0
    ⟨[⟨[], none⟩], [], 1⟩ ⟨[⟨[], none⟩], [], 1⟩ (.number 5) rfl rfl

/-- Witness for C7: `false and print "x"` prints nothing and yields false;
`true or print "x"` prints nothing and yields true; `true and print "x"`
prints `x` and yields nil. -/
theorem c7_logical_operators_short_circuit_witness :
    evaluateAndExpression 6 (.booleanLiteral false) (.print (.stringLiteral "x")) 0
      ⟨[⟨[], none⟩], [], 1⟩ = .ok (.boolean false) ⟨[⟨[], none⟩], [], 1⟩ ∧
    evaluateOrExpression 6 (.booleanLiteral true) (.print (.stringLiteral "x")) 0
      ⟨[⟨[], none⟩], [], 1⟩ = .ok (.boolean true) ⟨[⟨[], none⟩], [], 1⟩ ∧
    evaluateAndExpression 6 (.booleanLiteral true) (.print (.stringLiteral "x")) 0
      ⟨[⟨[], none⟩], [], 1⟩ = .ok .nil ⟨[⟨[], none⟩], ["x"], 1⟩ :=
  ⟨(c7_logical_operators_short_circuit 5 (.booleanLiteral false)
      (.print (.stringLiteral "x")) 0 ⟨[⟨[], none⟩], [], 1⟩ ⟨[⟨[], none⟩], [], 1⟩
      (.boolean false) rfl).2.2.1 rfl,
   (c7_logical_operators_short_circuit 5 (.booleanLiteral true)
      (.print (.stringLiteral "x")) 0 ⟨[⟨[], none⟩], [], 1⟩ ⟨[⟨[], none⟩], [], 1⟩
      (.boolean true) rfl).2.2.2.2.1 rfl,
   ((c7_logical_operators_short_circuit 5 (.booleanLiteral true)
      (.print (.stringLiteral "x")) 0 ⟨[⟨[], none⟩], [], 1⟩ ⟨[⟨[], none⟩], [], 1⟩
      (.boolean true) rfl).2.2.2.1 rfl).trans rfl⟩


/-- C8.  The function-call protocol: with a matching arity, the call
appends exactly one fresh environment whose parent handle is the closure's
captured (definition-time) environment — not the caller's — and continues
by binding the arguments and then running the body there (part 1);
argument binding is left-to-right, each argument evaluated against the
caller's environment and bound positionally in the fresh environment
(part 2); the first return-signal of the body supplies the call's result
and the remaining body statements never run (part 3); a statement without
a signal passes control to the rest of the body (part 4); a body that
finishes without a return yields nil (part 5); and inside the body a
return-signal propagates out of a statement sequence immediately, skipping
the remaining statements (part 6). -/
theorem c8_function_call_protocol (f : Nat) (callee : Expression)
    (argumentsO : Option (List Expression)) (env : Nat) (s s1 : EvalState)
    (fe : FunctionExpression) (capturedEnv : Nat)
    (h1 : evaluateExpression f callee env s = .ok (.function fe capturedEnv) s1)
    (hc : (argumentsO.map List.length).getD 0 = (fe.parameters.map List.length).getD 0) :
    (evaluateFunctionCall (f+1) callee argumentsO env s =
      (bindArguments f (fe.parameters.getD []) (argumentsO.getD []) env
          s1.envs.length >>= fun _ =>
        runFunctionBody f fe.body s1.envs.length)
        { s1 with envs := s1.envs ++ [⟨[], some capturedEnv⟩] }) ∧
    (∀ g p ps a args cEnv,
      bindArguments (g+1) (p :: ps) (a :: args) env cEnv =
        (evaluateExpression g a env >>= fun argVal =>
          addVarM cEnv p argVal >>= fun _ => bindArguments g ps args env cEnv)) ∧
    (∀ g stmt rest cEnv s' v s'',
      evaluateStmt g stmt cEnv s' = .ok (some v) s'' →
      runFunctionBody (g+1) (stmt :: rest) cEnv s' = .ok v s'') ∧
    (∀ g stmt rest cEnv s' s'',
      evaluateStmt g stmt cEnv s' = .ok none s'' →
      runFunctionBody (g+1) (stmt :: rest) cEnv s' = runFunctionBody g rest cEnv s'') ∧
    (∀ g cEnv s', runFunctionBody (g+1) ([] : List Statement) cEnv s' = .ok .nil s') ∧
    (∀ g stmt rest cEnv s' v s'',
      evaluateStmt g stmt cEnv s' = .ok (some v) s'' →
      evalStmtSeq (g+1) (stmt :: rest) cEnv s' = .ok (some v) s'') := by
  refine ⟨?_, ?_, ?_, ?_, ?_, ?_⟩
  · simp only [evaluateFunctionCall, EvalM.bind_ok h1]
    rw [if_neg (by simp [hc])]
    exact EvalM.bind_ok rfl
  · intro g p ps a args cEnv
    rfl
  · intro g stmt rest cEnv s' v s'' h
    simp only [runFunctionBody, EvalM.bind_ok h]
    rfl
  · intro g stmt rest cEnv s' s'' h
    simp only [runFunctionBody, EvalM.bind_ok h]
  · intro g cEnv s'
    rfl
  · intro g stmt rest cEnv s' v s'' h
    simp only [evalStmtSeq, EvalM.bind_ok h]
    rfl

/-- Witness for C8: calling `fun (a) { return a; print "after"; }` with
argument `7` from the single global environment yields `7`; the arena ends
with exactly one new environment, parented to the captured environment `0`,
holding the positional binding `a ↦ 7`; and the print after the return
never runs (the output stays empty). -/
theorem c8_function_call_protocol_witness :
    evaluateFunctionCall 6
      (.function (.mk none (some ["a"]) [.ret (.ident "a"), .print (.stringLiteral "after")]))
      (some [.numberLiteral 7]) 0 ⟨[⟨[], none⟩], [], 1⟩ =
      .ok (.number 7) ⟨[⟨[], none⟩, ⟨[("a", .number 7)], some 0⟩], [], 1⟩ :=
  ((c8_function_call_protocol 5
    (.function (.mk none (some ["a"]) [.ret (.ident "a"), .print (.stringLiteral "after")]))
    (some [.numberLiteral 7]) 0 ⟨[⟨[], none⟩], [], 1⟩ ⟨[⟨[], none⟩], [], 1⟩
    (.mk none (some ["a"]) [.ret (.ident "a"), .print (.stringLiteral "after")]) 0
    rfl rfl).1).trans rfl



/-- If `is_declared` finds the name, the `assign` walk with the same fuel
finds a declaring scope before running out of parents. -/
theorem isDeclaredFrom_assignFrom (w : Nat) (envs : List Environment) (env : Nat)
    (key : String) (val : Object)
    (h : isDeclaredFrom w envs env key = some true) :
    (assignFrom w envs env key val).isSome := by
  induction w generalizing env with
  | zero => simp [isDeclaredFrom] at h
  | succ w ih =>
    simp only [isDeclaredFrom] at h
    simp only [assignFrom]
    cases he : envs[env]? with
    | none => simp [he] at h
    | some e =>
      simp only [he] at h ⊢
      cases hl : (lookupVar e.values key).isSome with
      | true => simp [hl]
      | false =>
        simp only [hl, Bool.false_eq_true, if_false] at h ⊢
        cases hp : e.parentEnv with
        | none => simp [hp] at h
        | some p =>
          simp only [hp] at h ⊢
          exact ih p h

theorem pure_ne_panicked {α : Type} (a : α) (s : EvalState) (site : String) :
    (pure a : EvalM α) s ≠ .panicked site := nofun

theorem throwE_ne_panicked {α : Type} (e : EvaluationError) (s : EvalState)
    (site : String) : (throwE e : EvalM α) s ≠ .panicked site := nofun

theorem spinE_ne_panicked {α : Type} (s : EvalState) (site : String) :
    (spinE : EvalM α) s ≠ .panicked site := nofun

theorem panicE_ne_panicked {α : Type} {site site' : String} (h : site ≠ site')
    (s : EvalState) : (panicE site : EvalM α) s ≠ .panicked site' := by
  intro hh
  injection hh with h1
  exact h h1

theorem ofExceptE_ne_panicked (x : Except EvaluationError Object) (s : EvalState)
    (site : String) : ofExceptE x s ≠ .panicked site := by
  cases x <;> nofun

/-- Binding preserves not-panicking-at-a-site. -/
theorem EvalM.bind_ne_panicked {α β : Type} {m : EvalM α} {k : α → EvalM β}
    {site : String} {s : EvalState}
    (hm : m s ≠ .panicked site) (hk : ∀ a s', k a s' ≠ .panicked site) :
    (m >>= k) s ≠ .panicked site := by
  rw [EvalM.bind_apply]
  cases h : m s with
  | ok a s' => exact hk a s'
  | err e s' => nofun
  | panicked site' => rw [h] at hm; simpa using hm
  | spin => nofun



/-- Corollary with the full-fuel wrappers. -/
theorem isDeclared_assign_isSome (envs : List Environment) (env : Nat)
    (key : String) (val : Object) (h : isDeclared envs env key = some true) :
    (assign envs env key val).isSome :=
  isDeclaredFrom_assignFrom _ _ _ _ _ h

/-- The kind dispatch of `evaluate_infix_expression` never produces the
`Environment::assign` panic (its only panic site is the numeric
`unimplemented!`, a different site). -/
theorem infixKindDispatch_ne (op : Token) (lv rv : Object) (s2 : EvalState) :
    infixKindDispatch op lv rv s2 ≠ .panicked "Environment::assign" := by
  cases lv <;> cases rv <;> simp only [infixKindDispatch] <;> split
  all_goals intro hh
  all_goals injection hh
  all_goals rename_i h1
  all_goals exact absurd h1 (by decide)

/-- No evaluator function can produce the `Environment::assign` panic: its
only source, the not-declared-anywhere branch of `assign`, sits behind the
`is_declared` check of `evaluate_assignment_infix_expression`, and a chain
that `is_declared` accepts always gives `assign` a declaring scope. -/
theorem assign_panic_free_master (f : Nat) :
    (∀ l r env s, evaluateAndExpression f l r env s ≠ .panicked "Environment::assign") ∧
    (∀ l r env s, evaluateOrExpression f l r env s ≠ .panicked "Environment::assign") ∧
    (∀ l r env s, evaluateAssignmentInfixExpression f l r env s ≠ .panicked "Environment::assign") ∧
    (∀ op l r env s, evaluateInfixExpression f op l r env s ≠ .panicked "Environment::assign") ∧
    (∀ op e env s, evaluatePrefixExpression f op e env s ≠ .panicked "Environment::assign") ∧
    (∀ e env s, evaluateExpression f e env s ≠ .panicked "Environment::assign") ∧
    (∀ ce args env s, evaluateFunctionCall f ce args env s ≠ .panicked "Environment::assign") ∧
    (∀ ps args env cEnv s, bindArguments f ps args env cEnv s ≠ .panicked "Environment::assign") ∧
    (∀ body cEnv s, runFunctionBody f body cEnv s ≠ .panicked "Environment::assign") ∧
    (∀ st env s, evaluateStmt f st env s ≠ .panicked "Environment::assign") ∧
    (∀ ss env s, evalStmtSeq f ss env s ≠ .panicked "Environment::assign") ∧
    (∀ cond body env s, evaluateWhileStatement f cond body env s ≠ .panicked "Environment::assign") ∧
    (∀ cond ib eb env s, evaluateIfStatement f cond ib eb env s ≠ .panicked "Environment::assign") := by
  induction f with
  | zero =>
    refine ⟨?_, ?_, ?_, ?_, ?_, ?_, ?_, ?_, ?_, ?_, ?_, ?_, ?_⟩ <;> intros <;> nofun
  | succ f ih =>
    obtain ⟨ihAnd, ihOr, ihAssign, ihInfix, ihPre, ihExpr, ihCall, ihArgs,
      ihBody, ihStmt, ihSeq, ihWhile, ihIf⟩ := ih
    refine ⟨?_, ?_, ?_, ?_, ?_, ?_, ?_, ?_, ?_, ?_, ?_, ?_, ?_⟩
    -- evaluate_and_expression
    · intro l r env s
      simp only [evaluateAndExpression]
      refine EvalM.bind_ne_panicked (ihExpr _ _ _) ?_
      intro a s'
      split
      · exact pure_ne_panicked _ _ _
      · exact ihExpr _ _ _
    -- evaluate_or_expression
    · intro l r env s
      simp only [evaluateOrExpression]
      refine EvalM.bind_ne_panicked (ihExpr _ _ _) ?_
      intro a s'
      split
      · exact pure_ne_panicked _ _ _
      · exact ihExpr _ _ _
    -- evaluate_assignment_infix_expression
    · intro l r env s
      cases l with
      | ident x =>
        simp only [evaluateAssignmentInfixExpression]
        refine EvalM.bind_ne_panicked (ihExpr _ _ _) ?_
        intro v s'
        show (match isDeclared s'.envs env x with
              | none => (Outcome.spin : Outcome Object)
              | some false => .err (.undefinedVariable x) s'
              | some true =>
                match assign s'.envs env x v with
                | some envs' => .ok v { s' with envs := envs' }
                | none => .panicked "Environment::assign") ≠
          Outcome.panicked "Environment::assign"
        cases hd : isDeclared s'.envs env x with
        | none => nofun
        | some b =>
          cases b with
          | false => nofun
          | true =>
            cases ha : assign s'.envs env x v with
            | some envs' => nofun
            | none =>
              have hs := isDeclared_assign_isSome _ _ _ v hd
              rw [ha] at hs
              simp at hs
      | nilLiteral => exact throwE_ne_panicked _ _ _
      | print e1 => exact throwE_ne_panicked _ _ _
      | booleanLiteral b => exact throwE_ne_panicked _ _ _
      | numberLiteral n => exact throwE_ne_panicked _ _ _
      | stringLiteral str => exact throwE_ne_panicked _ _ _
      | groupedExpression e1 => exact throwE_ne_panicked _ _ _
      | prefixExpression op e1 => exact throwE_ne_panicked _ _ _
      | infixExpression op e1 e2 => exact throwE_ne_panicked _ _ _
      | function fe => exact throwE_ne_panicked _ _ _
      | call ce cargs => exact throwE_ne_panicked _ _ _
    -- evaluate_infix_expression
    · intro op l r env s
      simp only [evaluateInfixExpression]
      split
      · exact ihAssign _ _ _ _
      split
      · exact ihAnd _ _ _ _
      split
      · exact ihOr _ _ _ _
      · refine EvalM.bind_ne_panicked (ihExpr _ _ _) ?_
        intro lv s'
        refine EvalM.bind_ne_panicked (ihExpr _ _ _) ?_
        intro rv s''
        exact infixKindDispatch_ne op lv rv s''
    -- evaluate_prefix_expression
    · intro op e env s
      simp only [evaluatePrefixExpression]
      refine EvalM.bind_ne_panicked (ihExpr _ _ _) ?_
      intro v s'
      split
      · exact pure_ne_panicked _ _ _
      · split
        · exact pure_ne_panicked _ _ _
        · nofun
      · exact panicE_ne_panicked (by decide) _
    -- evaluate_expression
    · intro e env s
      cases e with
      | nilLiteral => nofun
      | print e1 =>
        simp only [evaluateExpression]
        refine EvalM.bind_ne_panicked (ihExpr _ _ _) ?_
        intro v s'
        refine EvalM.bind_ne_panicked (by nofun) ?_
        intro u s''
        exact pure_ne_panicked _ _ _
      | booleanLiteral b => nofun
      | numberLiteral n => nofun
      | stringLiteral str => nofun
      | ident x =>
        simp only [evaluateExpression]
        split
        · nofun
        · nofun
        · split
          · nofun
          · nofun
      | groupedExpression e1 => exact ihExpr _ _ _
      | prefixExpression op e1 => exact ihPre _ _ _ _
      | infixExpression op e1 e2 => exact ihInfix _ _ _ _ _
      | function fe =>
        simp only [evaluateExpression, evaluateFuntionExpression]
        split
        · nofun
        · nofun
      | call ce cargs => exact ihCall _ _ _ _
    -- evaluate_function_call
    · intro ce args env s
      simp only [evaluateFunctionCall]
      refine EvalM.bind_ne_panicked (ihExpr _ _ _) ?_
      intro cv s'
      cases cv with
      | function fe cap =>
        show (if (Option.map List.length args).getD 0 ≠
              (Option.map List.length fe.parameters).getD 0 then
            throwE (.runtime ("Expected " ++
              toString ((Option.map List.length fe.parameters).getD 0) ++
              " arguments but got " ++
              toString ((Option.map List.length args).getD 0) ++ "."))
          else do
            let childEnv ← pushEnv cap
            bindArguments f (fe.parameters.getD []) (args.getD []) env childEnv
            runFunctionBody f fe.body childEnv) s' ≠
          Outcome.panicked "Environment::assign"
        split
        · exact throwE_ne_panicked _ _ _
        · refine EvalM.bind_ne_panicked (by nofun) ?_
          intro cEnv s''
          refine EvalM.bind_ne_panicked (ihArgs _ _ _ _ _) ?_
          intro u s3
          exact ihBody _ _ _
      | nativeFunction fn => nofun
      | number n => exact throwE_ne_panicked _ _ _
      | boolean b => exact throwE_ne_panicked _ _ _
      | string str => exact throwE_ne_panicked _ _ _
      | nil => exact throwE_ne_panicked _ _ _
    -- bindArguments
    · intro ps args env cEnv s
      cases ps with
      | nil => nofun
      | cons p ps' =>
        cases args with
        | nil =>
          simp only [bindArguments]
          exact panicE_ne_panicked (by decide) _
        | cons a args' =>
          simp only [bindArguments]
          refine EvalM.bind_ne_panicked (ihExpr _ _ _) ?_
          intro v s'
          refine EvalM.bind_ne_panicked (by nofun) ?_
          intro u s''
          exact ihArgs _ _ _ _ _
    -- runFunctionBody
    · intro body cEnv s
      cases body with
      | nil => nofun
      | cons st rest =>
        simp only [runFunctionBody]
        refine EvalM.bind_ne_panicked (ihStmt _ _ _) ?_
        intro r s'
        cases r with
        | some v => nofun
        | none => exact ihBody _ _ _
    -- evaluate_stmt
    · intro st env s
      cases st with
      | expression e =>
        simp only [evaluateStmt]
        refine EvalM.bind_ne_panicked (ihExpr _ _ _) ?_
        intro v s'
        exact pure_ne_panicked _ _ _
      | print e =>
        simp only [evaluateStmt]
        refine EvalM.bind_ne_panicked (ihExpr _ _ _) ?_
        intro v s'
        refine EvalM.bind_ne_panicked (by nofun) ?_
        intro u s''
        exact pure_ne_panicked _ _ _
      | varDeclaration x eo =>
        cases eo with
        | some e =>
          simp only [evaluateStmt]
          refine EvalM.bind_ne_panicked (ihExpr _ _ _) ?_
          intro v s'
          refine EvalM.bind_ne_panicked (by nofun) ?_
          intro u s''
          exact pure_ne_panicked _ _ _
        | none =>
          simp only [evaluateStmt]
          refine EvalM.bind_ne_panicked (by nofun) ?_
          intro u s''
          exact pure_ne_panicked _ _ _
      | block stmts =>
        simp only [evaluateStmt]
        refine EvalM.bind_ne_panicked (by nofun) ?_
        intro cEnv s'
        exact ihSeq _ _ _
      | ifStatement cond ib eb => exact ihIf _ _ _ _ _
      | whileLoop cond body => exact ihWhile _ _ _ _
      | ret e =>
        simp only [evaluateStmt]
        refine EvalM.bind_ne_panicked (ihExpr _ _ _) ?_
        intro v s'
        exact pure_ne_panicked _ _ _
    -- evalStmtSeq
    · intro ss env s
      cases ss with
      | nil => nofun
      | cons st rest =>
        simp only [evalStmtSeq]
        refine EvalM.bind_ne_panicked (ihStmt _ _ _) ?_
        intro r s'
        cases r with
        | some v => nofun
        | none => exact ihSeq _ _ _
    -- evaluate_while_statement
    · intro cond body env s
      simp only [evaluateWhileStatement]
      cases cond with
      | some expr =>
        refine EvalM.bind_ne_panicked
          (EvalM.bind_ne_panicked (ihExpr _ _ _) fun x s' => pure_ne_panicked _ _ _) ?_
        intro val s'
        split
        · exact pure_ne_panicked _ _ _
        · refine EvalM.bind_ne_panicked (ihStmt _ _ _) ?_
          intro r s''
          cases r with
          | some v => nofun
          | none => exact ihWhile _ _ _ _
      | none =>
        refine EvalM.bind_ne_panicked (pure_ne_panicked _ _ _) ?_
        intro val s'
        split
        · exact pure_ne_panicked _ _ _
        · refine EvalM.bind_ne_panicked (ihStmt _ _ _) ?_
          intro r s''
          cases r with
          | some v => nofun
          | none => exact ihWhile _ _ _ _
    -- evaluate_if_statement
    · intro cond ib eb env s
      simp only [evaluateIfStatement]
      refine EvalM.bind_ne_panicked (ihExpr _ _ _) ?_
      intro v s'
      split
      · exact ihStmt _ _ _
      · cases eb with
        | some e => exact ihStmt _ _ _
        | none => nofun


/-- The top-level program loop of `evaluate_program` cannot produce the
`Environment::assign` panic either. -/
theorem evalProgramLoop_assign_panic_free (f : Nat) (ss : List Statement)
    (env : Nat) (s : EvalState) :
    evalProgramLoop f ss env s ≠ .panicked "Environment::assign" := by
  induction f generalizing ss s with
  | zero => nofun
  | succ f ih =>
    cases ss with
    | nil => nofun
    | cons st rest =>
      simp only [evalProgramLoop]
      refine EvalM.bind_ne_panicked
        ((assign_panic_free_master f).2.2.2.2.2.2.2.2.2.1 _ _ _) ?_
      intro r s'
      cases r with
      | some v => nofun
      | none => exact ih _ _

/-- C10.  The `unreachable!` branch of `Environment::assign` is never
reached during evaluation: whenever `is_declared` accepts a name on a
chain, the `assign` walk with the same fuel finds a declaring scope before
running out of parents (so the walk never falls off the end of the chain);
and no expression evaluation, statement evaluation or program run, at any
fuel, can produce the `Environment::assign` panic outcome — the evaluator
invokes `assign` only behind the `is_declared` check. -/
theorem c10_environment_assign_unreachable :
    (∀ w envs env key val, isDeclaredFrom w envs env key = some true →
      (assignFrom w envs env key val).isSome) ∧
    (∀ f e env s, evaluateExpression f e env s ≠ .panicked "Environment::assign") ∧
    (∀ f st env s, evaluateStmt f st env s ≠ .panicked "Environment::assign") ∧
    (∀ f ss env s, evalProgramLoop f ss env s ≠ .panicked "Environment::assign") :=
  ⟨fun w envs env key val h => isDeclaredFrom_assignFrom w envs env key val h,
   fun f e env s => (assign_panic_free_master f).2.2.2.2.2.1 e env s,
   fun f st env s => (assign_panic_free_master f).2.2.2.2.2.2.2.2.2.1 st env s,
   fun f ss env s => evalProgramLoop_assign_panic_free f ss env s⟩

/-- Witness for C10 on a one-scope chain declaring `x`. -/
theorem c10_environment_assign_unreachable_witness :
    isDeclaredFrom 2 [⟨[("x", Object.nil)], none⟩] 0 "x" = some true ∧
    (assignFrom 2 [⟨[("x", Object.nil)], none⟩] 0 "x" (Object.number 1)).isSome :=
  ⟨rfl, c10_environment_assign_unreachable.1 2 [⟨[("x", Object.nil)], none⟩] 0 "x"
    (Object.number 1) rfl⟩

end Lox
